import Mathlib

/-!
Verification of the squirrel-camera mode-arbitration control loop
(`squirrel_cam_vid.py`).

The script is a single `while True` loop that polls a low-resolution
camera feed through a YOLO detector, and on a target detection switches
the camera to a high-resolution video configuration, records a clip of
fixed duration, switches back, and then enforces a cooldown before the
next poll.  Wall-clock instants and durations (Python floats from
`time.time()`) are modelled as rationals; the loop itself is modelled as
a small-step transition relation on an explicit system state, with one
state per suspension point of the process.
-/

/-! ## Configuration constants (lines 13–18 of the source) -/
def TARGET_OBJECTS : List String :=
  ["cat", "bear", "person", "dog", "bird", "squirrel", "rabbit"]

def CONFIDENCE_THRESHOLD : ℚ := 1/2

def VIDEO_FOLDER : String := "squirrel_videos"

def DETECTION_INTERVAL_SECONDS : ℚ := 5

def VIDEO_DURATION_SECONDS : ℚ := 60

def COOLDOWN_SECONDS : ℚ := 30

/-- The fixed stabilisation delay `time.sleep(0.5)` after the switch to the
video configuration (line 76). -/
def SETTLE_DELAY_SECONDS : ℚ := 1/2

/-! ## Cooldown gate

Line 56 of the source reads
`if (current_time - last_detection_time) < COOLDOWN_SECONDS: sleep; continue`.
The gate is quiet (polling permitted) exactly when that guard is false. -/
/-- The cooldown gate: quiet (polling permitted) iff the guard of line 56,
`now - lastRecordingEndedAt < cooldownDuration`, is false.  The source
hard-codes `cooldownDuration := COOLDOWN_SECONDS`; the anchor variable is
`last_detection_time`, initialised to `0` (line 45). -/
def isQuiet (now lastRecordingEndedAt cooldownDuration : ℚ) : Bool :=
  !(decide (now - lastRecordingEndedAt < cooldownDuration))

/-! ## Drift-compensated scheduler (lines 105–107) -/
/-- Line 105: `time_to_next_detection = DETECTION_INTERVAL_SECONDS - (time.time() - current_time)`,
with the interval generalised to a parameter as in the spec contract. -/
def timeToNextPoll (pollStartedAt now interval : ℚ) : ℚ :=
  interval - (now - pollStartedAt)

/-- Lines 106–107: the loop sleeps for `t` when `t > 0` and otherwise does not
sleep (a zero-length sleep). -/
def sleepAmount (t : ℚ) : ℚ :=
  if 0 < t then t else 0

/-! ## Detector adapter and trigger (lines 65–69) -/
/-- One detection returned by the object detector: a label and a confidence. -/
structure Detection where
  label : String
  conf : ℚ
deriving DecidableEq

/-- Models `model.predict(frame, conf=CONFIDENCE_THRESHOLD)` (line 65): the
external YOLO detector returns only the detections whose confidence meets the
given threshold.  The bound is inclusive, per the spec's Object Detector
interface and tie-break policy (the detector itself is an external
collaborator, not part of the repository). -/
def predictBoxes (threshold : ℚ) (dets : List Detection) : List Detection :=
  dets.filter (fun d => decide (threshold ≤ d.conf))

/-- Line 67: `detected_objects = [model.names[int(box.cls)] for box in results[0].boxes]`. -/
def detectedObjects (boxes : List Detection) : List String :=
  boxes.map (fun b => b.label)

/-- Line 69: `any(obj in TARGET_OBJECTS for obj in detected_objects)`, applied
to the detections surviving the detector's confidence filter. -/
def triggerOf (dets : List Detection) : Bool :=
  (detectedObjects (predictBoxes CONFIDENCE_THRESHOLD dets)).any
    (fun obj => TARGET_OBJECTS.contains obj)

/-! ## The control loop as a small-step transition system

Each state of the machine corresponds to a suspension point of the
single-threaded process (the spec's observable instants): the top of the
`while True` loop, the three `time.sleep` calls inside it, the scheduler
sleep, and the terminated process.  Each transition executes the straight-line
code between two suspension points.  Nondeterministic inputs (detector
results, capture/inference latencies, the arrival of a `KeyboardInterrupt`,
a raising Recorder) are arguments of the transition constructors. -/
/-- The configuration held by the shared camera: the low-resolution detection
configuration (line 33) or the 4K video configuration (line 36). -/
inductive ResourceMode
  | Sensing
  | Recording
deriving DecidableEq

/-- The Mode Controller's abstract state from the spec's data model. -/
inductive SessionState
  | Idle
  | Recording
  | Cooldown
deriving DecidableEq

/-- Program points at which the process is suspended. -/
inductive Phase
  /-- About to execute `current_time = time.time()` (line 54). -/
  | atTop
  /-- Inside `time.sleep(1)` of the cooldown-wait branch (line 57). -/
  | cooldownSleep
  /-- Inside `time.sleep(0.5)` after the switch to the video configuration (line 76). -/
  | settleSleep
  /-- Inside `time.sleep(VIDEO_DURATION_SECONDS)` with the recording open (line 89). -/
  | recordSleep
  /-- Inside `time.sleep(time_to_next_detection)` (line 107). -/
  | pollSleep (amount : ℚ)
  /-- The `finally` block has run and the process has exited. -/
  | exited
deriving DecidableEq

/-- Ghost log of recording start/stop instants, newest first, used to state
that recording sessions never overlap. -/
inductive RecEvent
  | start (t : ℚ)
  | stop (t : ℚ)
deriving DecidableEq

/-- The wall-clock instant of a recording event. -/
def eTime : RecEvent → ℚ
  | .start t => t
  | .stop t => t

/-- The full system state: program point, wall clock, the two time variables
of the script, the camera's configuration and running flags, whether an
encoder output is open, and the ghost event log. -/
structure SysState where
  phase : Phase
  /-- The wall clock (what `time.time()` would return now). -/
  now : ℚ
  /-- The variable `current_time` (line 54). -/
  current_time : ℚ
  /-- The variable `last_detection_time` (lines 45 and 102). -/
  last_detection_time : ℚ
  mode : ResourceMode
  /-- Whether the camera is started (`picam2.start()` … `picam2.stop()`). -/
  cameraRunning : Bool
  /-- Whether `start_recording` has been issued without a matching
  `stop_recording` (the encoder/output is open). -/
  recordingOpen : Bool
  events : List RecEvent
deriving DecidableEq

/-- The state after lines 45–49: anchor zero, camera started in the detection
configuration, at the top of the loop, at wall-clock time `t0`. -/
def init (t0 : ℚ) : SysState :=
  { phase := .atTop
    now := t0
    current_time := t0
    last_detection_time := 0
    mode := .Sensing
    cameraRunning := true
    recordingOpen := false
    events := [] }

/-- One transition between suspension points of the loop.  Latency arguments
(`lat`, `lat2`, `p`) model the wall-clock time consumed by capture, inference,
mode switches and partial sleeps; they may be any nonnegative rationals. -/
inductive Step : SysState → SysState → Prop
  /-- Lines 54–58 with the gate closed: read the clock, take the
  cooldown-wait branch, begin `time.sleep(1)`. -/
  | cooldownEnter (s : SysState) (h : s.phase = .atTop)
      (hq : isQuiet s.now s.last_detection_time COOLDOWN_SECONDS = false) :
      Step s { s with phase := .cooldownSleep, current_time := s.now }
  /-- The `time.sleep(1)` of line 57 completes and the loop continues. -/
  | cooldownWake (s : SysState) (h : s.phase = .cooldownSleep) :
      Step s { s with phase := .atTop, now := s.now + 1 }
  /-- Lines 54–69 with the gate open and no trigger, then lines 105–107 with a
  positive remainder: begin the scheduler sleep.  `lat` is the time consumed
  by capture and inference. -/
  | pollNoTriggerSleep (s : SysState) (dets : List Detection) (lat : ℚ)
      (h : s.phase = .atTop)
      (hq : isQuiet s.now s.last_detection_time COOLDOWN_SECONDS = true)
      (hlat : 0 ≤ lat)
      (ht : triggerOf dets = false)
      (hpos : 0 < timeToNextPoll s.now (s.now + lat) DETECTION_INTERVAL_SECONDS) :
      Step s { s with
        phase := .pollSleep (timeToNextPoll s.now (s.now + lat) DETECTION_INTERVAL_SECONDS)
        now := s.now + lat
        current_time := s.now }
  /-- As above but the processing latency already consumed the interval, so
  lines 106–107 perform no sleep and the loop returns to the top. -/
  | pollNoTriggerNoSleep (s : SysState) (dets : List Detection) (lat : ℚ)
      (h : s.phase = .atTop)
      (hq : isQuiet s.now s.last_detection_time COOLDOWN_SECONDS = true)
      (hlat : 0 ≤ lat)
      (ht : triggerOf dets = false)
      (hpos : ¬ 0 < timeToNextPoll s.now (s.now + lat) DETECTION_INTERVAL_SECONDS) :
      Step s { s with phase := .atTop, now := s.now + lat, current_time := s.now }
  /-- The scheduler sleep of line 107 completes. -/
  | pollWake (s : SysState) (a : ℚ) (h : s.phase = .pollSleep a) :
      Step s { s with phase := .atTop, now := s.now + a }
  /-- Lines 54–76 with the gate open and a trigger: capture, detect,
  `picam2.switch_mode(video_config)` (line 73), begin `time.sleep(0.5)`. -/
  | triggerFire (s : SysState) (dets : List Detection) (lat : ℚ)
      (h : s.phase = .atTop)
      (hq : isQuiet s.now s.last_detection_time COOLDOWN_SECONDS = true)
      (hlat : 0 ≤ lat)
      (ht : triggerOf dets = true) :
      Step s { s with
        phase := .settleSleep
        now := s.now + lat
        current_time := s.now
        mode := .Recording }
  /-- Lines 76–89: the settle sleep completes, the timestamp and filename are
  computed, `picam2.start_recording` succeeds (opening the output), and the
  recording sleep begins. -/
  | startRecording (s : SysState) (h : s.phase = .settleSleep) :
      Step s { s with
        phase := .recordSleep
        now := s.now + SETTLE_DELAY_SECONDS
        recordingOpen := true
        events := .start (s.now + SETTLE_DELAY_SECONDS) :: s.events }
  /-- `picam2.start_recording` (line 86) raises.  Only `KeyboardInterrupt` is
  caught (line 109), so the exception propagates out of the loop and the
  `finally` block stops the camera (line 112). -/
  | startRecordingFail (s : SysState) (h : s.phase = .settleSleep) :
      Step s { s with
        phase := .exited
        now := s.now + SETTLE_DELAY_SECONDS
        cameraRunning := false }
  /-- Lines 89–107 with a nonpositive remainder: the recording sleep
  completes, `stop_recording` (line 91) closes the output, the camera
  switches back to the detection configuration (line 99), the anchor is set
  to `current_time` (line 102), and no scheduler sleep is needed.  `lat2` is
  the time consumed by stopping, switching and logging. -/
  | recordingDoneNoSleep (s : SysState) (lat2 : ℚ) (h : s.phase = .recordSleep)
      (hlat2 : 0 ≤ lat2)
      (hpos : ¬ 0 < timeToNextPoll s.current_time
        (s.now + VIDEO_DURATION_SECONDS + lat2) DETECTION_INTERVAL_SECONDS) :
      Step s { s with
        phase := .atTop
        now := s.now + VIDEO_DURATION_SECONDS + lat2
        mode := .Sensing
        recordingOpen := false
        last_detection_time := s.current_time
        events := .stop (s.now + VIDEO_DURATION_SECONDS) :: s.events }
  /-- As above but with a positive remainder, entering the scheduler sleep. -/
  | recordingDoneSleep (s : SysState) (lat2 : ℚ) (h : s.phase = .recordSleep)
      (hlat2 : 0 ≤ lat2)
      (hpos : 0 < timeToNextPoll s.current_time
        (s.now + VIDEO_DURATION_SECONDS + lat2) DETECTION_INTERVAL_SECONDS) :
      Step s { s with
        phase := .pollSleep (timeToNextPoll s.current_time
          (s.now + VIDEO_DURATION_SECONDS + lat2) DETECTION_INTERVAL_SECONDS)
        now := s.now + VIDEO_DURATION_SECONDS + lat2
        mode := .Sensing
        recordingOpen := false
        last_detection_time := s.current_time
        events := .stop (s.now + VIDEO_DURATION_SECONDS) :: s.events }
  /-- `picam2.stop_recording` (line 91) raises: the exception propagates and
  the `finally` block stops the camera; the output is never closed. -/
  | stopRecordingFail (s : SysState) (h : s.phase = .recordSleep) :
      Step s { s with
        phase := .exited
        now := s.now + VIDEO_DURATION_SECONDS
        cameraRunning := false }
  /-- A `KeyboardInterrupt` arrives at the current suspension point, `p`
  seconds in: the handler of line 109 prints and the `finally` block of
  line 112 runs `picam2.stop()`.  `stop()` is the Image Source collaborator's
  stop — it stops the camera.  Modelled from the spec: the spec's §6 lists the
  Recorder's `stopRecording` as a distinct operation, and the code never calls
  `stop_recording` on this path, so an open recording output stays open. -/
  | interrupt (s : SysState) (p : ℚ) (h : s.phase ≠ .exited) (hp : 0 ≤ p) :
      Step s { s with phase := .exited, now := s.now + p, cameraRunning := false }

/-- Execution reachability for the loop. -/
def Reachable (s0 s : SysState) : Prop :=
  Relation.ReflTransGen Step s0 s

/-- The Mode Controller state corresponding to each program point: Recording
spans the mode-switched portion of a triggered cycle, Cooldown is the
cooldown-wait branch, and everything else is Idle. -/
def sessionStateOf : Phase → SessionState
  | .atTop => .Idle
  | .cooldownSleep => .Cooldown
  | .settleSleep => .Recording
  | .recordSleep => .Recording
  | .pollSleep _ => .Idle
  | .exited => .Idle

/-! ## Event-log shape and the loop invariant -/
/-- A ghost log (newest first) consisting of completed recordings only:
alternating stop/start pairs. -/
inductive ClosedEvs : List RecEvent → Prop
  | nil : ClosedEvs []
  | pair (t u : ℚ) (rest : List RecEvent) (h : ClosedEvs rest) :
      ClosedEvs (.stop t :: .start u :: rest)

/-- A ghost log (newest first) with one recording still open on top of
completed recordings. -/
inductive OpenEvs : List RecEvent → Prop
  | cons (u : ℚ) (rest : List RecEvent) (h : ClosedEvs rest) :
      OpenEvs (.start u :: rest)

/-- The completed recording sessions in a ghost log (newest first), as
(start, stop) intervals. -/
def sessionsOf : List RecEvent → List (ℚ × ℚ)
  | .stop t :: .start u :: rest => (u, t) :: sessionsOf rest
  | .start _ :: rest => sessionsOf rest
  | .stop _ :: rest => sessionsOf rest
  | [] => []

/-- The inductive invariant of the control loop. -/
structure LoopInv (s : SysState) : Prop where
  /-- Outside the exited state, the camera holds the video configuration
  exactly during the mode-switched portion of a triggered cycle. -/
  mode_iff : s.phase ≠ .exited →
    (s.mode = .Recording ↔ (s.phase = .settleSleep ∨ s.phase = .recordSleep))
  /-- During the settle sleep, the triggering poll started no later than now. -/
  ct_settle : s.phase = .settleSleep → s.current_time ≤ s.now
  /-- During the recording sleep, at least the settle delay has elapsed since
  the triggering poll started. -/
  ct_rec : s.phase = .recordSleep → s.current_time + SETTLE_DELAY_SECONDS ≤ s.now
  /-- Scheduler sleeps are nonnegative. -/
  poll_amt : ∀ a, s.phase = .pollSleep a → 0 ≤ a
  /-- Outside the recording sleep and the exited state, all logged recordings
  are complete. -/
  ev_closed : s.phase ≠ .recordSleep → s.phase ≠ .exited → ClosedEvs s.events
  /-- During the recording sleep, exactly one recording is open. -/
  ev_open : s.phase = .recordSleep → OpenEvs s.events
  /-- The log always has one of the two shapes. -/
  ev_any : ClosedEvs s.events ∨ OpenEvs s.events
  /-- Every logged instant is in the past. -/
  ev_head : ∀ e ∈ s.events, eTime e ≤ s.now
  /-- Logged instants are nonincreasing (newest first). -/
  ev_chain : List.Chain' (fun a b => eTime b ≤ eTime a) s.events

def trigState : SysState :=
  { phase := .settleSleep
    now := 100
    current_time := 100
    last_detection_time := 0
    mode := .Recording
    cameraRunning := true
    recordingOpen := false
    events := [] }

def recState : SysState :=
  { phase := .recordSleep
    now := 201/2
    current_time := 100
    last_detection_time := 0
    mode := .Recording
    cameraRunning := true
    recordingOpen := true
    events := [.start (201/2)] }

def postRecState : SysState :=
  { phase := .atTop
    now := 321/2
    current_time := 100
    last_detection_time := 100
    mode := .Sensing
    cameraRunning := true
    recordingOpen := false
    events := [.stop (321/2), .start (201/2)] }

def interruptedState : SysState :=
  { phase := .exited
    now := 221/2
    current_time := 100
    last_detection_time := 0
    mode := .Recording
    cameraRunning := false
    recordingOpen := true
    events := [.start (201/2)] }

def failState : SysState :=
  { phase := .exited
    now := 201/2
    current_time := 100
    last_detection_time := 0
    mode := .Recording
    cameraRunning := false
    recordingOpen := false
    events := [] }

/-! ## Artifact filenames (lines 79–80)

`timestamp = datetime.now().strftime("%Y-%m-%d_%H-%M-%S")` and
`video_filename = os.path.join(VIDEO_FOLDER, f"video_{timestamp}.mp4")`.
The strftime fields are zero-padded decimal numbers; `datetime` years range
over 1…9999 and any contemporary clock renders as four digits. -/
/-- A wall-clock datetime as used for filenames. -/
structure DateTime where
  year : Nat
  month : Nat
  day : Nat
  hour : Nat
  minute : Nat
  second : Nat
deriving DecidableEq

/-- Field ranges of a rendered `datetime.now()` value (four-digit year). -/
def ValidDT (t : DateTime) : Prop :=
  1000 ≤ t.year ∧ t.year ≤ 9999 ∧ 1 ≤ t.month ∧ t.month ≤ 12 ∧
    1 ≤ t.day ∧ t.day ≤ 31 ∧ t.hour ≤ 23 ∧ t.minute ≤ 59 ∧ t.second ≤ 59

instance : DecidablePred ValidDT := fun t => by
  unfold ValidDT
  infer_instance

/-- Chronological order on datetimes: lexicographic by field, most
significant first. -/
def DateTime.chronoLE (a b : DateTime) : Prop :=
  a.year < b.year ∨ (a.year = b.year ∧
    (a.month < b.month ∨ (a.month = b.month ∧
      (a.day < b.day ∨ (a.day = b.day ∧
        (a.hour < b.hour ∨ (a.hour = b.hour ∧
          (a.minute < b.minute ∨ (a.minute = b.minute ∧
            a.second ≤ b.second)))))))))

instance (a b : DateTime) : Decidable (DateTime.chronoLE a b) := by
  unfold DateTime.chronoLE
  infer_instance

/-- The `k` zero-padded decimal digits of `n`, most significant first, as
written by strftime's numeric fields. -/
def padDigits : Nat → Nat → List Char
  | 0, _ => []
  | k+1, n => Nat.digitChar (n / 10 ^ k) :: padDigits k (n % 10 ^ k)

/-- The characters of `strftime("%Y-%m-%d_%H-%M-%S")`. -/
def timestampChars (t : DateTime) : List Char :=
  padDigits 4 t.year ++ '-' :: (padDigits 2 t.month ++ '-' :: (padDigits 2 t.day ++
    '_' :: (padDigits 2 t.hour ++ '-' :: (padDigits 2 t.minute ++ '-' ::
      padDigits 2 t.second))))

/-- Line 79: the timestamp string. -/
def timestampStr (t : DateTime) : String :=
  String.mk (timestampChars t)

/-- Line 80: `os.path.join(VIDEO_FOLDER, f"video_{timestamp}.mp4")` (POSIX
join of a relative directory and a filename). -/
def video_filename (t : DateTime) : String :=
  VIDEO_FOLDER ++ "/" ++ "video_" ++ timestampStr t ++ ".mp4"

def dtA : DateTime := ⟨2025, 10, 12, 9, 30, 0⟩

def dtB : DateTime := ⟨2025, 10, 12, 9, 30, 1⟩

/-! ## Claim theorems: gate, scheduler, trigger -/
/-- C2 (counterexample): as stated the claim asserts that with the initial
anchor value `0` the gate reports quiet unconditionally.  At wall-clock time
`now = 10` (a clock ten seconds past the epoch, e.g. a freshly booted board
before time synchronisation) the gate with anchor `0` and the shipped
cooldown of 30 s is not quiet, so the first iteration takes the cooldown-wait
branch rather than polling. -/
theorem C2_gate_counterexample :
    isQuiet 10 0 COOLDOWN_SECONDS = false := by
  simp [isQuiet, COOLDOWN_SECONDS]
  norm_num

/-- C2 (amended): for all `now ≥ lastRecordingEndedAt` the gate is not quiet
iff `now - lastRecordingEndedAt < cooldownDuration`; and with the initial
anchor value `0` the gate reports quiet exactly once `now ≥ cooldownDuration`,
so polling is permitted from the first iteration whenever the wall clock is at
least `cooldownDuration` seconds past the epoch (every realistic startup). -/
theorem C2_gate_amended :
    (∀ now lastRecordingEndedAt cooldownDuration : ℚ,
        lastRecordingEndedAt ≤ now →
        (isQuiet now lastRecordingEndedAt cooldownDuration = false ↔
          now - lastRecordingEndedAt < cooldownDuration)) ∧
    (∀ now cooldownDuration : ℚ, cooldownDuration ≤ now →
        isQuiet now 0 cooldownDuration = true) := by
  constructor
  · intro now lastRec cd _
    simp [isQuiet]
  · intro now cd h
    simp [isQuiet]
    linarith

/-- C2 (witness for the amended theorem): at `now = 35`, anchor `0`,
cooldown `30`, the gate is quiet and the equivalence holds. -/
theorem C2_gate_amended_witness :
    ((0:ℚ) ≤ 35 ∧ (isQuiet 35 0 30 = false ↔ (35:ℚ) - 0 < 30)) ∧
    ((30:ℚ) ≤ 100 ∧ isQuiet 100 0 30 = true) := by
  refine ⟨⟨by norm_num, C2_gate_amended.1 35 0 30 (by norm_num)⟩,
    ⟨by norm_num, C2_gate_amended.2 100 30 (by norm_num)⟩⟩

/-- C3: for every poll start time and every processing duration `p ≥ 0`, the
scheduler sleeps exactly `max 0 (interval - p)`: the positive remainder when
`p < interval`, and nothing at all when `p ≥ interval`. -/
theorem C3_scheduler (pollStartedAt p interval : ℚ) (hp : 0 ≤ p) :
    sleepAmount (timeToNextPoll pollStartedAt (pollStartedAt + p) interval) =
      max 0 (interval - p) := by
  unfold sleepAmount timeToNextPoll
  have h : pollStartedAt + p - pollStartedAt = p := by ring
  rw [h]
  rcases lt_or_le 0 (interval - p) with hpos | hnonpos
  · rw [if_pos hpos, max_eq_right hpos.le]
  · rw [if_neg (not_lt.mpr hnonpos), max_eq_left hnonpos]

/-- C3 (witness): with poll start `2`, processing time `3` and interval `5`,
the scheduler sleeps `max 0 (5 - 3) = 2`. -/
theorem C3_scheduler_witness :
    (0:ℚ) ≤ 3 ∧
      sleepAmount (timeToNextPoll 2 (2 + 3) 5) = max 0 ((5:ℚ) - 3) :=
  ⟨by norm_num, C3_scheduler 2 3 5 (by norm_num)⟩

/-- C4: the trigger is true iff at least one detection has its label in the
target set and confidence at least the threshold (inclusive bound), and the
trigger is false on the empty detection sequence. -/
theorem C4_trigger :
    (∀ dets : List Detection,
        (triggerOf dets = true ↔
          ∃ d ∈ dets, d.label ∈ TARGET_OBJECTS ∧ CONFIDENCE_THRESHOLD ≤ d.conf)) ∧
    triggerOf [] = false := by
  constructor
  · intro dets
    simp only [triggerOf, detectedObjects, predictBoxes, List.any_eq_true,
      List.mem_map, List.mem_filter, decide_eq_true_eq]
    constructor
    · rintro ⟨lab, ⟨d, ⟨hd, hconf⟩, rfl⟩, hmem⟩
      exact ⟨d, hd, List.elem_iff.mp hmem, hconf⟩
    · rintro ⟨d, hd, hmem, hconf⟩
      exact ⟨d.label, ⟨d, ⟨hd, hconf⟩, rfl⟩, List.elem_iff.mpr hmem⟩
  · rfl

/-- C4 (witness): a single detection `("cat", 1)` triggers, and the empty
sequence does not. -/
theorem C4_trigger_witness :
    triggerOf [⟨"cat", 1⟩] = true ∧ triggerOf [] = false := by
  refine ⟨(C4_trigger.1 [⟨"cat", 1⟩]).mpr ?_, C4_trigger.2⟩
  refine ⟨⟨"cat", 1⟩, by simp, ?_, ?_⟩
  · simp [TARGET_OBJECTS]
  · norm_num [CONFIDENCE_THRESHOLD]

/-- Pushing a newer event onto a well-ordered log keeps it well ordered. -/
theorem chain'_push (e0 : RecEvent) (l : List RecEvent)
    (hall : ∀ e ∈ l, eTime e ≤ eTime e0)
    (hch : List.Chain' (fun a b => eTime b ≤ eTime a) l) :
    List.Chain' (fun a b => eTime b ≤ eTime a) (e0 :: l) := by
  rw [List.chain'_cons']
  refine ⟨?_, hch⟩
  intro b hb
  exact hall b (List.mem_of_mem_head? hb)

theorem inv_init (t0 : ℚ) : LoopInv (init t0) := by
  refine ⟨?_, ?_, ?_, ?_, ?_, ?_, ?_, ?_, ?_⟩ <;> simp [init]
  · exact ClosedEvs.nil
  · exact Or.inl ClosedEvs.nil

/-- Inversion for an open log. -/
theorem openEvs_inv {l : List RecEvent} (h : OpenEvs l) :
    ∃ u rest, l = .start u :: rest ∧ ClosedEvs rest := by
  cases h with
  | cons u rest hrest => exact ⟨u, rest, rfl, hrest⟩

theorem inv_step {s s' : SysState} (hs : LoopInv s) (h : Step s s') :
    LoopInv s' := by
  cases h with
  | cooldownEnter h hq =>
      refine ⟨?_, ?_, ?_, ?_, ?_, ?_, ?_, ?_, ?_⟩ <;> simp_all
      · intro hrec
        rcases (hs.mode_iff (by simp [h])).mp hrec with h' | h' <;> simp_all
      · exact hs.ev_closed (by simp [h]) (by simp [h])
      · exact hs.ev_any
      · exact hs.ev_head
      · exact hs.ev_chain
  | cooldownWake h =>
      refine ⟨?_, ?_, ?_, ?_, ?_, ?_, ?_, ?_, ?_⟩ <;> simp_all
      · intro hrec
        rcases (hs.mode_iff (by simp [h])).mp hrec with h' | h' <;> simp_all
      · exact hs.ev_closed (by simp [h]) (by simp [h])
      · exact hs.ev_any
      · intro e he
        have := hs.ev_head e he
        linarith
      · exact hs.ev_chain
  | pollNoTriggerSleep dets lat h hq hlat ht hpos =>
      refine ⟨?_, ?_, ?_, ?_, ?_, ?_, ?_, ?_, ?_⟩ <;> simp_all
      · intro hrec
        rcases (hs.mode_iff (by simp [h])).mp hrec with h' | h' <;> simp_all
      · exact hpos.le
      · exact hs.ev_closed (by simp [h]) (by simp [h])
      · exact hs.ev_any
      · intro e he
        have := hs.ev_head e he
        linarith
      · exact hs.ev_chain
  | pollNoTriggerNoSleep dets lat h hq hlat ht hpos =>
      refine ⟨?_, ?_, ?_, ?_, ?_, ?_, ?_, ?_, ?_⟩ <;> simp_all
      · intro hrec
        rcases (hs.mode_iff (by simp [h])).mp hrec with h' | h' <;> simp_all
      · exact hs.ev_closed (by simp [h]) (by simp [h])
      · exact hs.ev_any
      · intro e he
        have := hs.ev_head e he
        linarith
      · exact hs.ev_chain
  | pollWake a h =>
      have ha : 0 ≤ a := hs.poll_amt a h
      refine ⟨?_, ?_, ?_, ?_, ?_, ?_, ?_, ?_, ?_⟩ <;> simp_all
      · intro hrec
        rcases (hs.mode_iff (by simp [h])).mp hrec with h' | h' <;> simp_all
      · exact hs.ev_closed (by simp [h]) (by simp [h])
      · exact hs.ev_any
      · intro e he
        have := hs.ev_head e he
        linarith
      · exact hs.ev_chain
  | triggerFire dets lat h hq hlat ht =>
      refine ⟨?_, ?_, ?_, ?_, ?_, ?_, ?_, ?_, ?_⟩ <;> simp_all
      · exact hs.ev_closed (by simp [h]) (by simp [h])
      · exact hs.ev_any
      · intro e he
        have := hs.ev_head e he
        linarith
      · exact hs.ev_chain
  | startRecording h =>
      have hcl : ClosedEvs s.events := hs.ev_closed (by simp [h]) (by simp [h])
      have hmode : s.mode = .Recording :=
        (hs.mode_iff (by simp [h])).mpr (Or.inl h)
      refine ⟨?_, ?_, ?_, ?_, ?_, ?_, ?_, ?_, ?_⟩ <;> simp_all
      · exact hs.ct_settle h
      · exact OpenEvs.cons _ _ hcl
      · exact Or.inr (OpenEvs.cons _ _ hcl)
      · constructor
        · exact le_rfl
        · intro e he
          have := hs.ev_head e he
          rcases e with t | t <;> simp only [eTime] at this ⊢ <;>
            norm_num [SETTLE_DELAY_SECONDS] <;> linarith
      · refine chain'_push _ _ ?_ hs.ev_chain
        intro e he
        have := hs.ev_head e he
        rcases e with t | t <;> simp only [eTime] at this ⊢ <;>
          norm_num [SETTLE_DELAY_SECONDS] <;> linarith
  | startRecordingFail h =>
      have hcl : ClosedEvs s.events := hs.ev_closed (by simp [h]) (by simp [h])
      refine ⟨?_, ?_, ?_, ?_, ?_, ?_, ?_, ?_, ?_⟩ <;> simp_all
      · intro e he
        have := hs.ev_head e he
        rcases e with t | t <;> simp only [eTime] at this ⊢ <;>
          norm_num [SETTLE_DELAY_SECONDS] <;> linarith
      · exact hs.ev_chain
  | recordingDoneNoSleep lat2 h hlat2 hpos =>
      have hop : OpenEvs s.events := hs.ev_open h
      refine ⟨?_, ?_, ?_, ?_, ?_, ?_, ?_, ?_, ?_⟩ <;> simp_all
      · obtain ⟨u, rest, hevs, hrest⟩ := openEvs_inv hop
        rw [hevs]
        exact ClosedEvs.pair _ _ _ hrest
      · obtain ⟨u, rest, hevs, hrest⟩ := openEvs_inv hop
        rw [hevs]
        exact Or.inl (ClosedEvs.pair _ _ _ hrest)
      · constructor
        · simp only [eTime]
          linarith
        · intro e he
          have := hs.ev_head e he
          rcases e with t | t <;> simp only [eTime] at this ⊢ <;>
            norm_num [VIDEO_DURATION_SECONDS] <;> linarith
      · refine chain'_push _ _ ?_ hs.ev_chain
        intro e he
        have := hs.ev_head e he
        rcases e with t | t <;> simp only [eTime] at this ⊢ <;>
          norm_num [VIDEO_DURATION_SECONDS] <;> linarith
  | recordingDoneSleep lat2 h hlat2 hpos =>
      have hop : OpenEvs s.events := hs.ev_open h
      refine ⟨?_, ?_, ?_, ?_, ?_, ?_, ?_, ?_, ?_⟩ <;> simp_all
      · exact hpos.le
      · obtain ⟨u, rest, hevs, hrest⟩ := openEvs_inv hop
        rw [hevs]
        exact ClosedEvs.pair _ _ _ hrest
      · obtain ⟨u, rest, hevs, hrest⟩ := openEvs_inv hop
        rw [hevs]
        exact Or.inl (ClosedEvs.pair _ _ _ hrest)
      · constructor
        · simp only [eTime]
          linarith
        · intro e he
          have := hs.ev_head e he
          rcases e with t | t <;> simp only [eTime] at this ⊢ <;>
            norm_num [VIDEO_DURATION_SECONDS] <;> linarith
      · refine chain'_push _ _ ?_ hs.ev_chain
        intro e he
        have := hs.ev_head e he
        rcases e with t | t <;> simp only [eTime] at this ⊢ <;>
          norm_num [VIDEO_DURATION_SECONDS] <;> linarith
  | stopRecordingFail h =>
      have hop : OpenEvs s.events := hs.ev_open h
      refine ⟨?_, ?_, ?_, ?_, ?_, ?_, ?_, ?_, ?_⟩ <;> simp_all
      · intro e he
        have := hs.ev_head e he
        rcases e with t | t <;> simp only [eTime] at this ⊢ <;>
          norm_num [VIDEO_DURATION_SECONDS] <;> linarith
      · exact hs.ev_chain
  | interrupt p h hp =>
      refine ⟨?_, ?_, ?_, ?_, ?_, ?_, ?_, ?_, ?_⟩ <;> simp_all
      · exact hs.ev_any
      · intro e he
        have := hs.ev_head e he
        linarith
      · exact hs.ev_chain

theorem inv_reachable {t0 : ℚ} {s : SysState} (h : Reachable (init t0) s) :
    LoopInv s := by
  induction h with
  | refl => exact inv_init t0
  | tail _ hstep ih => exact inv_step ih hstep

/-! ## Completed sessions never overlap -/
/-- The gate is quiet whenever the quiet period has elapsed. -/
theorem isQuiet_of_ge {now last cd : ℚ} (h : cd ≤ now - last) :
    isQuiet now last cd = true := by
  simp [isQuiet]
  linarith

/-- In a well-ordered log every element is at most the head instant. -/
theorem chain'_all_le (x : RecEvent) (l : List RecEvent)
    (h : List.Chain' (fun a b => eTime b ≤ eTime a) (x :: l)) :
    ∀ e ∈ l, eTime e ≤ eTime x := by
  induction l generalizing x with
  | nil => simp
  | cons y ys ih =>
      intro e he
      rw [List.chain'_cons] at h
      rcases List.mem_cons.mp he with rfl | hmem
      · exact h.1
      · exact le_trans (ih y h.2 e hmem) h.1

/-- All sessions of a closed log lie below any bound on its instants. -/
theorem sessions_le (c : ℚ) (l : List RecEvent) (hc : ClosedEvs l)
    (hall : ∀ e ∈ l, eTime e ≤ c) :
    ∀ q ∈ sessionsOf l, q.1 ≤ c ∧ q.2 ≤ c := by
  induction hc with
  | nil => simp [sessionsOf]
  | pair t u rest hrest ih =>
      intro q hq
      simp only [sessionsOf, List.mem_cons] at hq
      rcases hq with rfl | hq
      · constructor
        · have : eTime (RecEvent.start u) ≤ c := hall _ (by simp)
          simpa [eTime] using this
        · have : eTime (RecEvent.stop t) ≤ c := hall _ (by simp)
          simpa [eTime] using this
      · exact ih (fun e he => hall e (by simp [he])) q hq

/-- On a closed well-ordered log, every extracted session is a genuine
interval and the sessions are pairwise disjoint (newest first: every older
session ends no later than each newer one starts). -/
theorem sessions_closed (l : List RecEvent) (hc : ClosedEvs l)
    (hch : List.Chain' (fun a b => eTime b ≤ eTime a) l) :
    (∀ q ∈ sessionsOf l, q.1 ≤ q.2) ∧
    List.Pairwise (fun p q => q.2 ≤ p.1) (sessionsOf l) := by
  induction hc with
  | nil => simp [sessionsOf]
  | pair t u rest hrest ih =>
      rw [List.chain'_cons] at hch
      have hut : u ≤ t := by simpa [eTime] using hch.1
      have hch2 := hch.2
      have hrest_le : ∀ e ∈ rest, eTime e ≤ u := by
        have := chain'_all_le (RecEvent.start u) rest hch2
        simpa [eTime] using this
      have hrchain : List.Chain' (fun a b => eTime b ≤ eTime a) rest :=
        hch2.tail
      obtain ⟨ih1, ih2⟩ := ih hrchain
      constructor
      · intro q hq
        simp only [sessionsOf, List.mem_cons] at hq
        rcases hq with rfl | hq
        · exact hut
        · exact ih1 q hq
      · simp only [sessionsOf]
        refine List.Pairwise.cons ?_ ih2
        intro q hq
        exact (sessions_le u rest hrest hrest_le q hq).2

/-- Extracting sessions ignores an open (unfinished) recording. -/
theorem sessionsOf_open (u : ℚ) (rest : List RecEvent) :
    sessionsOf (.start u :: rest) = sessionsOf rest := by
  simp [sessionsOf]

/-- Sessions of any log of a legal shape are intervals and pairwise
disjoint. -/
theorem sessions_wf (l : List RecEvent) (hshape : ClosedEvs l ∨ OpenEvs l)
    (hch : List.Chain' (fun a b => eTime b ≤ eTime a) l) :
    (∀ q ∈ sessionsOf l, q.1 ≤ q.2) ∧
    List.Pairwise (fun p q => q.2 ≤ p.1) (sessionsOf l) := by
  rcases hshape with hc | ho
  · exact sessions_closed l hc hch
  · obtain ⟨u, rest, rfl, hrest⟩ := openEvs_inv ho
    rw [sessionsOf_open]
    exact sessions_closed rest hrest hch.tail

/-! ## A concrete execution

At wall-clock time 100 a detection ("cat", 1) triggers a recording; the
recording starts at 100.5 and completes at 160.5.  Variants of the run
exercise a mid-recording interrupt and a raising Recorder. -/
theorem triggerOf_cat : triggerOf [⟨"cat", 1⟩] = true := by
  norm_num [triggerOf, predictBoxes, detectedObjects, CONFIDENCE_THRESHOLD,
    TARGET_OBJECTS]

theorem isQuiet_100 : isQuiet 100 0 COOLDOWN_SECONDS = true :=
  isQuiet_of_ge (by norm_num [COOLDOWN_SECONDS])

theorem step_trig : Step (init 100) trigState := by
  have heq : trigState =
      { init 100 with
        phase := .settleSleep
        now := (init 100).now + 0
        current_time := (init 100).now
        mode := .Recording } := by
    norm_num [trigState, init]
  rw [heq]
  exact Step.triggerFire (init 100) [⟨"cat", 1⟩] 0 rfl isQuiet_100 (le_refl 0)
    triggerOf_cat

theorem step_start : Step trigState recState := by
  have heq : recState =
      { trigState with
        phase := .recordSleep
        now := trigState.now + SETTLE_DELAY_SECONDS
        recordingOpen := true
        events := .start (trigState.now + SETTLE_DELAY_SECONDS) :: trigState.events } := by
    norm_num [recState, trigState, SETTLE_DELAY_SECONDS]
  rw [heq]
  exact Step.startRecording trigState rfl

theorem step_done : Step recState postRecState := by
  have heq : postRecState =
      { recState with
        phase := .atTop
        now := recState.now + VIDEO_DURATION_SECONDS + 0
        mode := .Sensing
        recordingOpen := false
        last_detection_time := recState.current_time
        events := .stop (recState.now + VIDEO_DURATION_SECONDS) :: recState.events } := by
    norm_num [postRecState, recState, VIDEO_DURATION_SECONDS]
  rw [heq]
  exact Step.recordingDoneNoSleep recState 0 rfl (le_refl 0)
    (by norm_num [timeToNextPoll, recState, VIDEO_DURATION_SECONDS,
      DETECTION_INTERVAL_SECONDS])

theorem step_int : Step recState interruptedState := by
  have heq : interruptedState =
      { recState with
        phase := .exited
        now := recState.now + 10
        cameraRunning := false } := by
    norm_num [interruptedState, recState]
  rw [heq]
  exact Step.interrupt recState 10 (by simp [recState]) (by norm_num)

theorem step_fail : Step trigState failState := by
  have heq : failState =
      { trigState with
        phase := .exited
        now := trigState.now + SETTLE_DELAY_SECONDS
        cameraRunning := false } := by
    norm_num [failState, trigState, SETTLE_DELAY_SECONDS]
  rw [heq]
  exact Step.startRecordingFail trigState rfl

theorem reach_trig : Reachable (init 100) trigState :=
  Relation.ReflTransGen.single step_trig

theorem reach_rec : Reachable (init 100) recState :=
  Relation.ReflTransGen.tail reach_trig step_start

theorem reach_postRec : Reachable (init 100) postRecState :=
  Relation.ReflTransGen.tail reach_rec step_done

theorem reach_interrupted : Reachable (init 100) interruptedState :=
  Relation.ReflTransGen.tail reach_rec step_int

theorem reach_fail : Reachable (init 100) failState :=
  Relation.ReflTransGen.tail reach_trig step_fail

/-! ## Claim theorems about the loop -/
/-- C1 (counterexample): in the concrete run, the recording completes at
wall-clock time 160.5 (the logged stop instant and the clock at completion),
but the cooldown anchor `last_detection_time` is set to 100 — the instant the
triggering poll iteration started — not to the completion time, contradicting
the claim that the quiet period begins at artifact-completion time. -/
theorem C1_anchor_counterexample :
    Reachable (init 100) postRecState ∧
    postRecState.events = [RecEvent.stop (321/2), RecEvent.start (201/2)] ∧
    postRecState.now = 321/2 ∧
    postRecState.last_detection_time = 100 ∧
    (100 : ℚ) ≠ 321/2 := by
  refine ⟨reach_postRec, rfl, rfl, rfl, by norm_num⟩

/-- C1 (amended): the cooldown anchor is updated only by the
recording-completion transition, and it is set to `current_time` — the
wall-clock instant at which the triggering poll iteration started — which
precedes the completion instant by at least the settle delay plus the
recording duration, so the quiet period begins at poll-start time, not at
artifact-completion time. -/
theorem C1_anchor_amended (t0 : ℚ) (s s' : SysState)
    (hr : Reachable (init t0) s) (hstep : Step s s')
    (hchg : s'.last_detection_time ≠ s.last_detection_time) :
    s.phase = Phase.recordSleep ∧
    s'.last_detection_time = s.current_time ∧
    s'.last_detection_time + SETTLE_DELAY_SECONDS + VIDEO_DURATION_SECONDS ≤ s'.now := by
  have hct := (inv_reachable hr).ct_rec
  cases hstep with
  | cooldownEnter h hq => simp_all
  | cooldownWake h => simp_all
  | pollNoTriggerSleep dets lat h hq hlat ht hpos => simp_all
  | pollNoTriggerNoSleep dets lat h hq hlat ht hpos => simp_all
  | pollWake a h => simp_all
  | triggerFire dets lat h hq hlat ht => simp_all
  | startRecording h => simp_all
  | startRecordingFail h => simp_all
  | recordingDoneNoSleep lat2 h hlat2 hpos =>
      refine ⟨h, rfl, ?_⟩
      have := hct h
      simp only
      linarith
  | recordingDoneSleep lat2 h hlat2 hpos =>
      refine ⟨h, rfl, ?_⟩
      have := hct h
      simp only
      linarith
  | stopRecordingFail h => simp_all
  | interrupt p h hp => simp_all

/-- C1 (witness for the amended theorem): the concrete completion step sets
the anchor to the triggering poll's start instant 100, at least 60.5 seconds
before the completion clock 160.5. -/
theorem C1_anchor_amended_witness :
    recState.phase = Phase.recordSleep ∧
    postRecState.last_detection_time = recState.current_time ∧
    postRecState.last_detection_time + SETTLE_DELAY_SECONDS +
      VIDEO_DURATION_SECONDS ≤ postRecState.now :=
  C1_anchor_amended 100 recState postRecState reach_rec step_done
    (by norm_num [postRecState, recState])

/-- C5: at every suspension point of every execution (the observable instants
of the single-threaded process) the camera's configuration and the Mode
Controller's state are consistent: the high-resolution video configuration is
held iff the session state is Recording, and at every other instant —
including throughout the cooldown wait and idle polling — the low-resolution
sensing configuration is held. -/
theorem C5_mode_consistent (t0 : ℚ) (s : SysState)
    (hr : Reachable (init t0) s) (hex : s.phase ≠ Phase.exited) :
    (s.mode = ResourceMode.Recording ↔
      sessionStateOf s.phase = SessionState.Recording) ∧
    (sessionStateOf s.phase ≠ SessionState.Recording →
      s.mode = ResourceMode.Sensing) := by
  have hm := (inv_reachable hr).mode_iff hex
  constructor
  · rw [hm]
    cases hph : s.phase <;> simp [sessionStateOf]
  · intro hns
    cases hmode : s.mode with
    | Sensing => rfl
    | Recording =>
        rcases hm.mp hmode with h' | h' <;> rw [h'] at hns <;>
          simp [sessionStateOf] at hns

/-- C5 (witness): the initial state is consistent. -/
theorem C5_mode_consistent_witness :
    ((init 0).mode = ResourceMode.Recording ↔
      sessionStateOf (init 0).phase = SessionState.Recording) ∧
    (sessionStateOf (init 0).phase ≠ SessionState.Recording →
      (init 0).mode = ResourceMode.Sensing) :=
  C5_mode_consistent 0 (init 0) Relation.ReflTransGen.refl (by simp [init])

/-- C6: in every execution the recording log is well formed and the completed
recording sessions are genuine intervals that never overlap: listed newest
first, every older session ends no later than each newer session starts, for
any poll timing jitter (arbitrary nonnegative latencies). -/
theorem C6_sessions_disjoint (t0 : ℚ) (s : SysState)
    (hr : Reachable (init t0) s) :
    (ClosedEvs s.events ∨ OpenEvs s.events) ∧
    (∀ q ∈ sessionsOf s.events, q.1 ≤ q.2) ∧
    List.Pairwise (fun p q => q.2 ≤ p.1) (sessionsOf s.events) := by
  have hinv := inv_reachable hr
  have hwf := sessions_wf s.events hinv.ev_any hinv.ev_chain
  exact ⟨hinv.ev_any, hwf.1, hwf.2⟩

/-- C6 (witness): the concrete post-recording state has one completed,
well-formed session. -/
theorem C6_sessions_disjoint_witness :
    (ClosedEvs postRecState.events ∨ OpenEvs postRecState.events) ∧
    List.Pairwise (fun p q => q.2 ≤ p.1) (sessionsOf postRecState.events) := by
  have h := C6_sessions_disjoint 100 postRecState reach_postRec
  exact ⟨h.1, h.2.2⟩

/-- C7: evaluation of the code at the failing input.  A `KeyboardInterrupt`
ten seconds into the recording sleep reaches a final state in which the
camera has been stopped (`picam2.stop()` in the `finally` block) but the
recording output opened by `start_recording` is still open — the `finally`
block never calls `stop_recording`, so the artifact is left partially open,
contrary to the claim. -/
theorem C7_interrupt_leaves_output_open :
    Reachable (init 100) interruptedState ∧
    interruptedState.phase = Phase.exited ∧
    interruptedState.cameraRunning = false ∧
    interruptedState.recordingOpen = true ∧
    interruptedState.events = [RecEvent.start (201/2)] :=
  ⟨reach_interrupted, rfl, rfl, rfl, rfl⟩

/-- C8 (counterexample): in the concrete run the Recorder raises inside
`start_recording`; the loop terminates via the `finally` block with the
cooldown anchor still at its previous value 0 — not updated to the poll
start 100 — and the controller never reaches the cooldown state, contrary to
the claim that a recording write failure still transitions to Cooldown. -/
theorem C8_failure_counterexample :
    Reachable (init 100) failState ∧
    failState.phase = Phase.exited ∧
    failState.last_detection_time = 0 ∧
    sessionStateOf failState.phase ≠ SessionState.Cooldown ∧
    (0 : ℚ) ≠ 100 := by
  refine ⟨reach_fail, rfl, rfl, by simp [failState, sessionStateOf], by norm_num⟩

/-- C8 (amended): if the Recorder raises during or after the session, the
exception propagates (only `KeyboardInterrupt` is caught): the process exits
with the cooldown anchor unchanged and the camera stopped, it does not
transition to Cooldown, and the exited state is terminal — so the recording
is indeed never retried within the same trigger (the process terminates),
and back-to-back failing attempts cannot occur. -/
theorem C8_failure_amended :
    (∀ s s' : SysState, Step s s' → s'.phase = Phase.exited →
      s'.last_detection_time = s.last_detection_time ∧
      s'.cameraRunning = false ∧
      sessionStateOf s'.phase ≠ SessionState.Cooldown) ∧
    (∀ s s' : SysState, s.phase = Phase.exited → ¬ Step s s') := by
  constructor
  · intro s s' hstep hex
    cases hstep with
    | cooldownEnter h hq => simp_all
    | cooldownWake h => simp_all
    | pollNoTriggerSleep dets lat h hq hlat ht hpos => simp_all
    | pollNoTriggerNoSleep dets lat h hq hlat ht hpos => simp_all
    | pollWake a h => simp_all
    | triggerFire dets lat h hq hlat ht => simp_all
    | startRecording h => simp_all
    | startRecordingFail h => exact ⟨rfl, rfl, by simp [sessionStateOf]⟩
    | recordingDoneNoSleep lat2 h hlat2 hpos => simp_all
    | recordingDoneSleep lat2 h hlat2 hpos => simp_all
    | stopRecordingFail h => exact ⟨rfl, rfl, by simp [sessionStateOf]⟩
    | interrupt p h hp => exact ⟨rfl, rfl, by simp [sessionStateOf]⟩
  · intro s s' hex hstep
    cases hstep with
    | cooldownEnter h hq => simp_all
    | cooldownWake h => simp_all
    | pollNoTriggerSleep dets lat h hq hlat ht hpos => simp_all
    | pollNoTriggerNoSleep dets lat h hq hlat ht hpos => simp_all
    | pollWake a h => simp_all
    | triggerFire dets lat h hq hlat ht => simp_all
    | startRecording h => simp_all
    | startRecordingFail h => simp_all
    | recordingDoneNoSleep lat2 h hlat2 hpos => simp_all
    | recordingDoneSleep lat2 h hlat2 hpos => simp_all
    | stopRecordingFail h => simp_all
    | interrupt p h hp => simp_all

/-- C8 (witness for the amended theorem): the concrete failing step exits
with the anchor unchanged and the exited state admits no further step. -/
theorem C8_failure_amended_witness :
    (failState.last_detection_time = trigState.last_detection_time ∧
      failState.cameraRunning = false ∧
      sessionStateOf failState.phase ≠ SessionState.Cooldown) ∧
    ¬ Step failState (init 0) :=
  ⟨C8_failure_amended.1 trigState failState step_fail rfl,
    C8_failure_amended.2 failState (init 0) rfl⟩

/-- C10: under the shipped constants, any non-exiting transition out of the
recording sleep returns directly to the loop top (the scheduler remainder is
already negative), and there the gate is necessarily open — the elapsed time
since the anchor (the triggering poll's start) is at least the settle delay
plus the recording duration, 60.5 s, which exceeds the 30 s cooldown — so the
cooldown-wait branch can never be taken in the iteration following a
completed recording and no quiet period is actually enforced. -/
theorem C10_no_cooldown_after_recording (t0 : ℚ) (s s' : SysState)
    (hr : Reachable (init t0) s) (hstep : Step s s')
    (hph : s.phase = Phase.recordSleep) (hex : s'.phase ≠ Phase.exited) :
    s'.phase = Phase.atTop ∧
    COOLDOWN_SECONDS ≤ s'.now - s'.last_detection_time ∧
    isQuiet s'.now s'.last_detection_time COOLDOWN_SECONDS = true ∧
    (∀ u, Step s' u → u.phase ≠ Phase.cooldownSleep) := by
  have hct := (inv_reachable hr).ct_rec
  cases hstep with
  | cooldownEnter h hq => simp_all
  | cooldownWake h => simp_all
  | pollNoTriggerSleep dets lat h hq hlat ht hpos => simp_all
  | pollNoTriggerNoSleep dets lat h hq hlat ht hpos => simp_all
  | pollWake a h => simp_all
  | triggerFire dets lat h hq hlat ht => simp_all
  | startRecording h => simp_all
  | startRecordingFail h => simp_all
  | recordingDoneNoSleep lat2 h hlat2 hpos =>
      have hgap : COOLDOWN_SECONDS ≤
          (s.now + VIDEO_DURATION_SECONDS + lat2) - s.current_time := by
        have := hct h
        norm_num [COOLDOWN_SECONDS, VIDEO_DURATION_SECONDS,
          SETTLE_DELAY_SECONDS] at *
        linarith
      have hquiet : isQuiet (s.now + VIDEO_DURATION_SECONDS + lat2)
          s.current_time COOLDOWN_SECONDS = true := isQuiet_of_ge hgap
      refine ⟨rfl, hgap, hquiet, ?_⟩
      intro u hu
      cases hu with
      | cooldownEnter h2 hq2 => simp_all
      | cooldownWake h2 => simp_all
      | pollNoTriggerSleep dets2 lat3 h2 hq2 hlat3 ht2 hpos2 => simp_all
      | pollNoTriggerNoSleep dets2 lat3 h2 hq2 hlat3 ht2 hpos2 => simp_all
      | pollWake a2 h2 => simp_all
      | triggerFire dets2 lat3 h2 hq2 hlat3 ht2 => simp_all
      | startRecording h2 => simp_all
      | startRecordingFail h2 => simp_all
      | recordingDoneNoSleep lat3 h2 hlat3 hpos2 => simp_all
      | recordingDoneSleep lat3 h2 hlat3 hpos2 => simp_all
      | stopRecordingFail h2 => simp_all
      | interrupt p2 h2 hp2 => simp_all
  | recordingDoneSleep lat2 h hlat2 hpos =>
      exfalso
      have := hct h
      norm_num [timeToNextPoll, DETECTION_INTERVAL_SECONDS,
        VIDEO_DURATION_SECONDS, SETTLE_DELAY_SECONDS] at *
      linarith
  | stopRecordingFail h => simp_all
  | interrupt p h hp => simp_all

/-- C10 (witness): in the concrete run the state after the completed
recording is back at the loop top with the gate open. -/
theorem C10_no_cooldown_after_recording_witness :
    postRecState.phase = Phase.atTop ∧
    COOLDOWN_SECONDS ≤ postRecState.now - postRecState.last_detection_time ∧
    isQuiet postRecState.now postRecState.last_detection_time
      COOLDOWN_SECONDS = true := by
  have h := C10_no_cooldown_after_recording 100 recState postRecState
    reach_rec step_done rfl (by simp [postRecState])
  exact ⟨h.1, h.2.1, h.2.2.1⟩

/-- Decimal digit characters are ordered like their digits. -/
theorem digitChar_mono : ∀ a < 10, ∀ b < 10,
    a < b → Nat.digitChar a < Nat.digitChar b := by decide

theorem padDigits_length (k n : Nat) : (padDigits k n).length = k := by
  induction k generalizing n with
  | zero => rfl
  | succ k ih => simp [padDigits, ih]

/-- Zero-padded renderings of numbers below `10 ^ k` compare like the
numbers. -/
theorem padDigits_lt (k : Nat) : ∀ n m : Nat, n < m → m < 10 ^ k →
    List.Lex (· < ·) (padDigits k n) (padDigits k m) := by
  induction k with
  | zero =>
      intro n m hnm hm
      omega
  | succ k ih =>
      intro n m hnm hm
      have hpow : 0 < 10 ^ k := Nat.pos_pow_of_pos k (by norm_num)
      have hmd : m / 10 ^ k < 10 := Nat.div_lt_of_lt_mul (by
        calc m < 10 ^ (k + 1) := hm
        _ = 10 ^ k * 10 := by rw [pow_succ])
      have hnd : n / 10 ^ k < 10 :=
        lt_of_le_of_lt (Nat.div_le_div_right hnm.le) hmd
      simp only [padDigits]
      rcases Nat.lt_trichotomy (n / 10 ^ k) (m / 10 ^ k) with hlt | heq | hgt
      · exact List.Lex.rel (digitChar_mono _ hnd _ hmd hlt)
      · have h1 := Nat.div_add_mod n (10 ^ k)
        have h2 := Nat.div_add_mod m (10 ^ k)
        rw [heq] at h1
        have hxy : 10 ^ k * (m / 10 ^ k) + n % 10 ^ k <
            10 ^ k * (m / 10 ^ k) + m % 10 ^ k := by
          rw [h1, h2]
          exact hnm
        have hmod : n % 10 ^ k < m % 10 ^ k := Nat.lt_of_add_lt_add_left hxy
        rw [heq]
        exact List.Lex.cons (ih _ _ hmod (Nat.mod_lt _ hpow))
      · exact absurd (Nat.div_le_div_right hnm.le) (Nat.not_le_of_lt hgt)

/-- A strict lexicographic prefix stays strict under equal-length append. -/
theorem lex_append_left {r : Char → Char → Prop} {as bs : List Char}
    (h : List.Lex r as bs) :
    ∀ cs ds : List Char, as.length = bs.length →
      List.Lex r (as ++ cs) (bs ++ ds) := by
  induction h with
  | nil =>
      intro cs ds hlen
      simp at hlen
  | @rel a as b bs hr =>
      intro cs ds hlen
      exact List.Lex.rel hr
  | @cons a as bs h ih =>
      intro cs ds hlen
      simp only [List.length_cons] at hlen
      exact List.Lex.cons (ih cs ds (by omega))

/-- A strict lexicographic comparison is preserved under a common prefix. -/
theorem lex_append_right {r : Char → Char → Prop} (as : List Char)
    {cs ds : List Char} (h : List.Lex r cs ds) :
    List.Lex r (as ++ cs) (as ++ ds) := by
  induction as with
  | nil => simpa using h
  | cons a as ih => exact List.Lex.cons ih

theorem lexle_cons {r : Char → Char → Prop} (c : Char) {l1 l2 : List Char}
    (h : List.Lex r l1 l2 ∨ l1 = l2) :
    List.Lex r (c :: l1) (c :: l2) ∨ c :: l1 = c :: l2 := by
  rcases h with h | rfl
  · exact Or.inl (List.Lex.cons h)
  · exact Or.inr rfl

theorem lexle_append_right {r : Char → Char → Prop} (as : List Char)
    {cs ds : List Char} (h : List.Lex r cs ds ∨ cs = ds) :
    List.Lex r (as ++ cs) (as ++ ds) ∨ as ++ cs = as ++ ds := by
  rcases h with h | rfl
  · exact Or.inl (lex_append_right as h)
  · exact Or.inr rfl

/-- The timestamp rendering is monotone: chronologically ordered datetimes
render to lexicographically ordered character sequences. -/
theorem timestampChars_mono (a b : DateTime) (hva : ValidDT a) (hvb : ValidDT b)
    (hle : DateTime.chronoLE a b) :
    List.Lex (· < ·) (timestampChars a) (timestampChars b) ∨
      timestampChars a = timestampChars b := by
  obtain ⟨ha1, ha2, ha3, ha4, ha5, ha6, ha7, ha8, ha9⟩ := hva
  obtain ⟨hb1, hb2, hb3, hb4, hb5, hb6, hb7, hb8, hb9⟩ := hvb
  unfold timestampChars
  rcases hle with hy | ⟨hy, hmo | ⟨hmo, hd | ⟨hd, hh | ⟨hh, hmi | ⟨hmi, hs⟩⟩⟩⟩⟩
  · exact Or.inl (lex_append_left (padDigits_lt 4 _ _ hy (by norm_num; omega))
      _ _ (by rw [padDigits_length, padDigits_length]))
  · rw [hy]
    refine lexle_append_right _ (lexle_cons _ ?_)
    exact Or.inl (lex_append_left (padDigits_lt 2 _ _ hmo (by norm_num; omega))
      _ _ (by rw [padDigits_length, padDigits_length]))
  · rw [hy, hmo]
    refine lexle_append_right _ (lexle_cons _ (lexle_append_right _
      (lexle_cons _ ?_)))
    exact Or.inl (lex_append_left (padDigits_lt 2 _ _ hd (by norm_num; omega))
      _ _ (by rw [padDigits_length, padDigits_length]))
  · rw [hy, hmo, hd]
    refine lexle_append_right _ (lexle_cons _ (lexle_append_right _
      (lexle_cons _ (lexle_append_right _ (lexle_cons _ ?_)))))
    exact Or.inl (lex_append_left (padDigits_lt 2 _ _ hh (by norm_num; omega))
      _ _ (by rw [padDigits_length, padDigits_length]))
  · rw [hy, hmo, hd, hh]
    refine lexle_append_right _ (lexle_cons _ (lexle_append_right _
      (lexle_cons _ (lexle_append_right _ (lexle_cons _ (lexle_append_right _
        (lexle_cons _ ?_)))))))
    exact Or.inl (lex_append_left (padDigits_lt 2 _ _ hmi (by norm_num; omega))
      _ _ (by rw [padDigits_length, padDigits_length]))
  · rw [hy, hmo, hd, hh, hmi]
    refine lexle_append_right _ (lexle_cons _ (lexle_append_right _
      (lexle_cons _ (lexle_append_right _ (lexle_cons _ (lexle_append_right _
        (lexle_cons _ (lexle_append_right _ (lexle_cons _ ?_)))))))))
    rcases Nat.lt_or_ge a.second b.second with hslt | hsge
    · exact Or.inl (padDigits_lt 2 _ _ hslt (by norm_num; omega))
    · have : a.second = b.second := le_antisymm hs hsge
      rw [this]
      exact Or.inr rfl

/-- The filename decomposes into a fixed prefix, the timestamp characters and
a fixed suffix. -/
theorem video_filename_data (t : DateTime) : (video_filename t).toList =
    "squirrel_videos/video_".toList ++ (timestampChars t ++ ".mp4".toList) := by
  simp [video_filename, timestampStr, VIDEO_FOLDER, String.toList]

/-- The timestamp rendering always has nineteen characters. -/
theorem timestampChars_length (t : DateTime) : (timestampChars t).length = 19 := by
  simp [timestampChars, padDigits_length]

/-- The naming function is monotone with respect to the lexicographic order
on strings. -/
theorem video_filename_le (a b : DateTime) (hva : ValidDT a) (hvb : ValidDT b)
    (hle : DateTime.chronoLE a b) : video_filename a ≤ video_filename b := by
  rcases timestampChars_mono a b hva hvb hle with hlex | heq
  · apply le_of_lt
    rw [String.lt_iff_toList_lt, video_filename_data, video_filename_data]
    show List.Lex (· < ·) _ _
    refine lex_append_right _ ?_
    exact lex_append_left hlex _ _
      (by rw [timestampChars_length, timestampChars_length])
  · have hts : timestampStr a = timestampStr b := congrArg String.mk heq
    apply le_of_eq
    unfold video_filename
    rw [hts]

/-- C9: for every triggered recording the artifact filename has the form
`squirrel_videos/video_<YYYY-MM-DD_HH-MM-SS>.mp4` — the fixed output
directory joined with the `video_` stem, the timestamp of the wall-clock
instant at which recording started, and the `.mp4` extension — and the
naming function is monotone: chronologically ordered recording start times
yield filenames ordered under the lexicographic string order, so names sort
chronologically. -/
theorem C9_filename_form_and_monotone (a b : DateTime)
    (hva : ValidDT a) (hvb : ValidDT b) (hle : DateTime.chronoLE a b) :
    (video_filename a).toList =
      "squirrel_videos/video_".toList ++ (timestampChars a ++ ".mp4".toList) ∧
    video_filename a ≤ video_filename b :=
  ⟨video_filename_data a, video_filename_le a b hva hvb hle⟩

/-- C9 (witness): two valid datetimes one second apart yield ordered
filenames. -/
theorem C9_filename_form_and_monotone_witness :
    ValidDT dtA ∧ ValidDT dtB ∧ DateTime.chronoLE dtA dtB ∧
    video_filename dtA ≤ video_filename dtB :=
  ⟨by decide, by decide, by decide,
    (C9_filename_form_and_monotone dtA dtB (by decide) (by decide)
      (by decide)).2⟩
